import Mathlib

/-!
# Verification of the jpegdump JPEG/JPEG-LS marker dumper

Shallow embedding of `src/jpegdump.py`.  The Python class `JpegReader`
holds a binary file, a `jpegls_stream` flag and prints trace lines to
stdout.  Here the file is a list of byte values (`data`) together with the
current read position (`pos`, Python's `file.tell()`), and the printed
trace is accumulated in `output` as pairs `(offset, text)`: the Python
code prints every line as an 8-character right-justified decimal offset
followed by a text, so a line is modelled as the offset value paired with
the text that follows the offset field (including the separating spaces,
which carry the indentation structure).

`file.read(1)` at end of file returns an empty bytes object (modelled by
`Option`); `file.read(1)[0]` at end of file raises an uncaught
`IndexError`, modelled by `Except JpegReader`: the `.error` value carries
the whole reader state at the moment the exception is raised, so that the
trace printed up to that point remains observable.  A Python statement
`print(f"{pos:8} ... {self._read_byte()}")` evaluates the offset first,
then the reads, and prints only if no read raised; the embedding captures
the offset before the reads and appends the line only after the reads
succeed.  The two-part prints of `_dump_start_of_scan`
(`print(..., end='')` followed by `print(value)`) are modelled as the one
completed line they form.
-/

/-! The values of the Python `JpegMarker` enum. -/
namespace JpegMarker

def START_OF_IMAGE : Nat := 0xD8
def END_OF_IMAGE : Nat := 0xD9
def START_OF_SCAN : Nat := 0xDA
def START_OF_FRAME_JPEGLS : Nat := 0xF7
def JPEGLS_EXTENDED_PARAMETERS : Nat := 0xF8
def APPLICATION_DATA0 : Nat := 0xE0
def APPLICATION_DATA7 : Nat := 0xE7
def APPLICATION_DATA8 : Nat := 0xE8
def COMMENT : Nat := 0xFE

end JpegMarker

/-- State of the Python `JpegReader` object: the underlying file (bytes and
current position), the `jpegls_stream` flag, and the trace printed so far. -/
structure JpegReader where
  data : List Nat
  pos : Nat
  jpegls_stream : Bool
  output : List (Nat × String)
  deriving Repr, DecidableEq

namespace JpegReader

/-- `print` of one full trace line `(offset, text)`. -/
def print_line (s : JpegReader) (offset : Nat) (text : String) : JpegReader :=
  { s with output := s.output ++ [(offset, text)] }

/-- `_read_bytes`: `self.file.read(1)` — empty result (here `none`) at end
of file, no exception. -/
def read_bytes (s : JpegReader) : Option Nat × JpegReader :=
  match s.data.get? s.pos with
  | some b => (some b, { s with pos := s.pos + 1 })
  | none => (none, s)

/-- `_read_byte`: `self.file.read(1)[0]` — raises `IndexError` at end of
file (the `.error` carries the state at the raise). -/
def read_byte (s : JpegReader) : Except JpegReader (Nat × JpegReader) :=
  match s.data.get? s.pos with
  | some b => .ok (b, { s with pos := s.pos + 1 })
  | none => .error s

/-- `_read_uint16_big_endian`: `self._read_byte() << 8 | self._read_byte()`,
evaluated left to right, so the high byte is read first. -/
def read_uint16_big_endian (s : JpegReader) : Except JpegReader (Nat × JpegReader) := do
  let (hi, s) ← s.read_byte
  let (lo, s) ← s.read_byte
  .ok ((hi <<< 8) ||| lo, s)

/-- `_position`: `self.file.tell()`. -/
def position (s : JpegReader) : Nat := s.pos

/-- `_get_start_offset`: `self._position - 2`. -/
def get_start_offset (s : JpegReader) : Nat := s.position - 2

/-- `_is_marker_code`. -/
def is_marker_code (s : JpegReader) (marker_code : Nat) : Bool :=
  if s.jpegls_stream then (marker_code &&& 0x80) == 0x80
  else decide (marker_code > 0)

/-- `_get_interleave_mode_name`'s lookup table `self.interleave_names`. -/
def interleave_names : List String := ["None", "Line interleaved", "Sample interleaved"]

/-- `_get_interleave_mode_name`. -/
def get_interleave_mode_name (interleave_mode : Nat) : String :=
  if h : interleave_mode < interleave_names.length then interleave_names.get ⟨interleave_mode, h⟩
  else "Invalid"

/-- Text of the line printed by `_dump_start_of_image_marker`. -/
def soi_text : String :=
  " Marker 0xFFD8: SOI (Start Of Image), defined in ITU T.81/IEC 10918-1"

/-- Text of the line printed by `_dump_end_of_image`. -/
def eoi_text : String :=
  " Marker 0xFFD9. EOI (End Of Image), defined in ITU T.81/IEC 10918-1"

/-- `_dump_start_of_image_marker`. -/
def dump_start_of_image_marker (s : JpegReader) : Except JpegReader JpegReader :=
  .ok (s.print_line s.get_start_offset soi_text)

/-- `_dump_end_of_image`. -/
def dump_end_of_image (s : JpegReader) : Except JpegReader JpegReader :=
  .ok (s.print_line s.get_start_offset eoi_text)

/-- Uppercase hexadecimal digit, as produced by Python's `X` format. -/
def hex_digit (n : Nat) : Char :=
  if n < 10 then Char.ofNat (48 + n) else Char.ofNat (55 + n)

/-- Python's `{n:02X}` format for a byte value. -/
def to_hex2 (n : Nat) : String :=
  String.mk [hex_digit (n / 16 % 16), hex_digit (n % 16)]

/-- Text of the line printed by `_dump_unknown_marker`. -/
def unknown_text (marker_code : Nat) : String :=
  " Marker 0xFF" ++ to_hex2 marker_code

/-- `_dump_unknown_marker`. -/
def dump_unknown_marker (s : JpegReader) (marker_code : Nat) : Except JpegReader JpegReader :=
  .ok (s.print_line s.get_start_offset (unknown_text marker_code))

/-- Summary line text of `_dump_start_of_frame_jpegls`. -/
def sof_summary_text : String :=
  " Marker 0xFFF7: SOF_55 (Start Of Frame JPEG-LS), defined in ITU T.87/IEC 14495-1 JPEG LS"

/-- Text of the `Size` line of `_dump_start_of_frame_jpegls`. -/
def sof_size_text (n : Nat) : String := "  Size = " ++ toString n

/-- Text of the `Sample precision` line. -/
def sof_precision_text (n : Nat) : String := "  Sample precision (P) = " ++ toString n

/-- Text of the `Number of lines` line. -/
def sof_y_text (n : Nat) : String := "  Number of lines (Y) = " ++ toString n

/-- Text of the `Number of samples per line` line. -/
def sof_x_text (n : Nat) : String := "  Number of samples per line (X) = " ++ toString n

/-- Text of the `Number of image components in a frame` line. -/
def sof_nf_text (n : Nat) : String :=
  "  Number of image components in a frame (Nf) = " ++ toString n

/-- Text of the `Component identifier` line (same in SOF_55 and SOS). -/
def ci_text (n : Nat) : String := "   Component identifier (Ci) = " ++ toString n

/-- Text of the `H and V sampling factor` line. -/
def sampling_text (n : Nat) : String :=
  "   H and V sampling factor (Hi + Vi) = " ++ toString n ++ " (" ++ toString (n >>> 4)
    ++ " + " ++ toString (n &&& 0xF) ++ ")"

/-- Text of the `Quantization table` line. -/
def tq_text (n : Nat) : String :=
  "   Quantization table (Tqi) [reserved, should be 0] = " ++ toString n

/-- One iteration of the component loop of `_dump_start_of_frame_jpegls`
(source lines 81-86): each printed offset is the position before the
corresponding field is read. -/
def dump_sof_component (s : JpegReader) : Except JpegReader JpegReader := do
  let o := s.position
  let (ci, s) ← s.read_byte
  let s := s.print_line o (ci_text ci)
  let o := s.position
  let (sampling_factor, s) ← s.read_byte
  let s := s.print_line o (sampling_text sampling_factor)
  let o := s.position
  let (tq, s) ← s.read_byte
  .ok (s.print_line o (tq_text tq))

/-- The component loop of `_dump_start_of_frame_jpegls`. -/
def dump_sof_components : Nat → JpegReader → Except JpegReader JpegReader
  | 0, s => .ok s
  | n + 1, s => do
    let s ← s.dump_sof_component
    dump_sof_components n s

/-- `_dump_start_of_frame_jpegls`. -/
def dump_start_of_frame_jpegls (s : JpegReader) : Except JpegReader JpegReader := do
  let s := s.print_line s.get_start_offset sof_summary_text
  let o := s.position
  let (size, s) ← s.read_uint16_big_endian
  let s := s.print_line o (sof_size_text size)
  let o := s.position
  let (precision, s) ← s.read_byte
  let s := s.print_line o (sof_precision_text precision)
  let o := s.position
  let (y, s) ← s.read_uint16_big_endian
  let s := s.print_line o (sof_y_text y)
  let o := s.position
  let (x, s) ← s.read_uint16_big_endian
  let s := s.print_line o (sof_x_text x)
  let o := s.position
  let (component_count, s) ← s.read_byte
  let s := s.print_line o (sof_nf_text component_count)
  let s ← dump_sof_components component_count s
  .ok { s with jpegls_stream := true }

/-- Summary line text of `_dump_start_of_scan`. -/
def sos_summary_text : String :=
  " Marker 0xFFDA: SOS (Start Of Scan), defined in ITU T.81/IEC 10918-1"

/-- Text of the `Size` line of `_dump_start_of_scan`. -/
def sos_size_text (n : Nat) : String := "  Size = " ++ toString n

/-- Text of the `Component Count` line (printed as a prefix with
`end=''` and the value after the read completed). -/
def sos_count_text (n : Nat) : String := "  Component Count = " ++ toString n

/-- Text of the `Mapping table selector` line. -/
def mapping_text (n : Nat) : String := "   Mapping table selector = " ++ toString n

/-- Text of the `Near lossless` line. -/
def near_text (n : Nat) : String := "  Near lossless (NEAR parameter) = " ++ toString n

/-- Text of the `Interleave mode` line. -/
def ilv_text (n : Nat) : String :=
  "  Interleave mode (ILV parameter) = " ++ toString n ++ " ("
    ++ get_interleave_mode_name n ++ ")"

/-- Text of the `Point Transform` line. -/
def pt_text (n : Nat) : String := "  Point Transform = " ++ toString n

/-- One iteration of the component loop of `_dump_start_of_scan`
(source lines 96-97). -/
def dump_sos_component (s : JpegReader) : Except JpegReader JpegReader := do
  let o := s.position
  let (ci, s) ← s.read_byte
  let s := s.print_line o (ci_text ci)
  let o := s.position
  let (mt, s) ← s.read_byte
  .ok (s.print_line o (mapping_text mt))

/-- The component loop of `_dump_start_of_scan`. -/
def dump_sos_components : Nat → JpegReader → Except JpegReader JpegReader
  | 0, s => .ok s
  | n + 1, s => do
    let s ← s.dump_sos_component
    dump_sos_components n s

/-- `_dump_start_of_scan`. -/
def dump_start_of_scan (s : JpegReader) : Except JpegReader JpegReader := do
  let s := s.print_line s.get_start_offset sos_summary_text
  let o := s.position
  let (size, s) ← s.read_uint16_big_endian
  let s := s.print_line o (sos_size_text size)
  let o := s.position
  let (component_count, s) ← s.read_byte
  let s := s.print_line o (sos_count_text component_count)
  let s ← dump_sos_components component_count s
  let o := s.position
  let (near, s) ← s.read_byte
  let s := s.print_line o (near_text near)
  let o := s.position
  let (ilv, s) ← s.read_byte
  let s := s.print_line o (ilv_text ilv)
  let o := s.position
  let (pt, s) ← s.read_byte
  .ok (s.print_line o (pt_text pt))

/-- `_dump_marker_code`: the dictionary `self.dump_functions` holds exactly
the four keys installed in `__init__`; `dict.get` with default `None`
falls through to `_dump_unknown_marker`. -/
def dump_marker_code (s : JpegReader) (marker_code : Nat) : Except JpegReader JpegReader :=
  if marker_code = JpegMarker.START_OF_IMAGE then s.dump_start_of_image_marker
  else if marker_code = JpegMarker.END_OF_IMAGE then s.dump_end_of_image
  else if marker_code = JpegMarker.START_OF_FRAME_JPEGLS then s.dump_start_of_frame_jpegls
  else if marker_code = JpegMarker.START_OF_SCAN then s.dump_start_of_scan
  else s.dump_unknown_marker marker_code

/-- The `while` loop of `dump`, with a fuel parameter for termination:
each non-final iteration advances `pos` by at least one, so any fuel
larger than `data.length - pos` is enough, and a fuel-exhaustion `.error`
is unreachable from `dump` below. -/
def dump_loop : Nat → JpegReader → Except JpegReader JpegReader
  | 0, s => .error s
  | fuel + 1, s =>
    match s.read_bytes with
    | (none, s) => .ok s
    | (some byte, s) =>
      if byte = 0xFF then
        match s.read_byte with
        | .error e => .error e
        | .ok (code, s) =>
          if s.is_marker_code code then
            match s.dump_marker_code code with
            | .error e => .error e
            | .ok s => dump_loop fuel s
          else dump_loop fuel s
      else dump_loop fuel s

/-- The state of a fresh `JpegReader` constructed on a file: position 0,
`jpegls_stream = False`, nothing printed yet. -/
def init (data : List Nat) : JpegReader := ⟨data, 0, false, []⟩

/-- `JpegReader.dump` run on a whole file. -/
def dump (data : List Nat) : Except JpegReader JpegReader :=
  dump_loop (data.length + 1) (init data)

/-! ### Basic facts about the reads -/

theorem read_byte_ok {s s' : JpegReader} {b : Nat} (h : s.read_byte = .ok (b, s')) :
    s.data.get? s.pos = some b ∧ s' = { s with pos := s.pos + 1 } := by
  unfold read_byte at h
  cases hg : s.data.get? s.pos with
  | none => rw [hg] at h; exact absurd h (by simp)
  | some c =>
    rw [hg] at h
    simp only [Except.ok.injEq, Prod.mk.injEq] at h
    exact ⟨by rw [h.1], h.2.symm⟩

theorem read_byte_err {s e : JpegReader} (h : s.read_byte = .error e) :
    s.data.length ≤ s.pos ∧ e = s := by
  unfold read_byte at h
  cases hg : s.data.get? s.pos with
  | none =>
    rw [hg] at h
    simp only [Except.error.injEq] at h
    exact ⟨List.get?_eq_none.mp hg, h.symm⟩
  | some c => rw [hg] at h; exact absurd h (by simp)

theorem read_byte_of_get {s : JpegReader} {b : Nat} (h : s.data.get? s.pos = some b) :
    s.read_byte = .ok (b, { s with pos := s.pos + 1 }) := by
  unfold read_byte; rw [h]

theorem read_uint16_ok {s s' : JpegReader} {v : Nat}
    (h : s.read_uint16_big_endian = .ok (v, s')) :
    ∃ hi lo, s.data.get? s.pos = some hi ∧ s.data.get? (s.pos + 1) = some lo ∧
      v = (hi <<< 8) ||| lo ∧ s' = { s with pos := s.pos + 2 } := by
  unfold read_uint16_big_endian at h
  cases h1 : s.read_byte with
  | error e => rw [h1] at h; simp only [bind, Except.bind] at h; exact Except.noConfusion h
  | ok p =>
    obtain ⟨hi, s1⟩ := p
    rw [h1] at h
    obtain ⟨hg1, hs1⟩ := read_byte_ok h1
    simp only [bind, Except.bind] at h
    cases h2 : s1.read_byte with
    | error e => rw [h2] at h; simp only [Except.bind] at h; exact Except.noConfusion h
    | ok q =>
      obtain ⟨lo, s2⟩ := q
      rw [h2] at h
      obtain ⟨hg2, hs2⟩ := read_byte_ok h2
      simp only [Except.ok.injEq, Prod.mk.injEq] at h
      refine ⟨hi, lo, hg1, ?_, h.1.symm, ?_⟩
      · rw [← hg2, hs1]
      · rw [← h.2, hs2, hs1]

theorem read_uint16_of_get {s : JpegReader} {hi lo : Nat}
    (h1 : s.data.get? s.pos = some hi) (h2 : s.data.get? (s.pos + 1) = some lo) :
    s.read_uint16_big_endian = .ok (((hi <<< 8) ||| lo), { s with pos := s.pos + 2 }) := by
  unfold read_uint16_big_endian
  rw [read_byte_of_get h1]
  simp only [bind, Except.bind]
  rw [read_byte_of_get (show ({ s with pos := s.pos + 1 } : JpegReader).data.get?
    ({ s with pos := s.pos + 1 } : JpegReader).pos = some lo from h2)]

theorem read_bytes_none {s s1 : JpegReader} (h : s.read_bytes = (none, s1)) :
    s.data.length ≤ s.pos ∧ s1 = s := by
  unfold read_bytes at h
  cases hg : s.data.get? s.pos with
  | none =>
    rw [hg] at h
    simp only [Prod.mk.injEq] at h
    exact ⟨List.get?_eq_none.mp hg, h.2.symm⟩
  | some c => rw [hg] at h; simp at h

theorem read_bytes_some {s s1 : JpegReader} {b : Nat} (h : s.read_bytes = (some b, s1)) :
    s.data.get? s.pos = some b ∧ s1 = { s with pos := s.pos + 1 } := by
  unfold read_bytes at h
  cases hg : s.data.get? s.pos with
  | none => rw [hg] at h; simp at h
  | some c =>
    rw [hg] at h
    simp only [Prod.mk.injEq, Option.some.injEq] at h
    obtain ⟨rfl, h2⟩ := h
    exact ⟨rfl, h2.symm⟩

theorem bind_ok {α β : Type} {x : Except JpegReader α} {f : α → Except JpegReader β} {b : β}
    (h : x >>= f = .ok b) : ∃ a, x = .ok a ∧ f a = .ok b := by
  cases x with
  | error e => simp only [bind, Except.bind] at h; exact Except.noConfusion h
  | ok a => exact ⟨a, rfl, h⟩

theorem bind_err {α β : Type} {x : Except JpegReader α} {f : α → Except JpegReader β}
    {e : JpegReader} (h : x >>= f = .error e) :
    x = .error e ∨ ∃ a, x = .ok a ∧ f a = .error e := by
  cases x with
  | error e' =>
    simp only [bind, Except.bind] at h
    exact Or.inl (by rw [Except.error.injEq] at h ⊢; exact h)
  | ok a => exact Or.inr ⟨a, rfl, h⟩

theorem get?_of_lt {d : List Nat} {n : Nat} (h : n < d.length) :
    d.get? n = some (d.getD n 0) := by
  rw [List.getD_eq_getElem?_getD, ← List.get?_eq_getElem?]
  cases hg : d.get? n with
  | none => rw [List.get?_eq_none] at hg; omega
  | some c => rfl

theorem getD_of_get? {d : List Nat} {n x : Nat} (h : d.get? n = some x) :
    d.getD n 0 = x := by
  rw [List.getD_eq_getElem?_getD, ← List.get?_eq_getElem?, h]; rfl

/-- Extending a string on the right keeps any prefix it already starts with. -/
theorem append_keeps_head {pre x : String} (h : ∃ r, x = pre ++ r) (y : String) :
    ∃ r, x ++ y = pre ++ r := by
  obtain ⟨r, rfl⟩ := h
  exact ⟨r ++ y, String.append_assoc pre r y⟩

theorem ci_text_indent (n : Nat) : ∃ r, ci_text n = "   " ++ r :=
  append_keeps_head
    (show ∃ r, "   Component identifier (Ci) = " = "   " ++ r from ⟨_, rfl⟩) (toString n)

theorem sampling_text_indent (n : Nat) : ∃ r, sampling_text n = "   " ++ r := by
  unfold sampling_text
  have h0 : ∃ r, "   H and V sampling factor (Hi + Vi) = " = "   " ++ r :=
    ⟨"H and V sampling factor (Hi + Vi) = ", rfl⟩
  exact append_keeps_head (append_keeps_head (append_keeps_head (append_keeps_head
    (append_keeps_head h0 _) _) _) _) _

theorem tq_text_indent (n : Nat) : ∃ r, tq_text n = "   " ++ r :=
  append_keeps_head
    (show ∃ r, "   Quantization table (Tqi) [reserved, should be 0] = " = "   " ++ r
      from ⟨_, rfl⟩) (toString n)

theorem mapping_text_indent (n : Nat) : ∃ r, mapping_text n = "   " ++ r :=
  append_keeps_head
    (show ∃ r, "   Mapping table selector = " = "   " ++ r from ⟨_, rfl⟩) (toString n)

/-- The offsets of the three lines per component printed by the SOF_55
component loop, for a loop entered at position `p`. -/
def triple_offsets (p : Nat) : Nat → List Nat
  | 0 => []
  | n + 1 => p :: (p + 1) :: (p + 2) :: triple_offsets (p + 3) n

/-- The offsets of the two lines per component printed by the SOS
component loop, for a loop entered at position `p`. -/
def pair_offsets (p : Nat) : Nat → List Nat
  | 0 => []
  | n + 1 => p :: (p + 1) :: pair_offsets (p + 2) n

theorem triple_offsets_le {x : Nat} : ∀ {p n : Nat}, x ∈ triple_offsets p n → p ≤ x := by
  intro p n
  induction n generalizing p with
  | zero => intro h; exact absurd h (by simp [triple_offsets])
  | succ m ih =>
    intro h
    simp only [triple_offsets, List.mem_cons] at h
    rcases h with rfl | rfl | rfl | h
    · exact Nat.le_refl x
    · omega
    · omega
    · have := ih h; omega

theorem pair_offsets_le {x : Nat} : ∀ {p n : Nat}, x ∈ pair_offsets p n → p ≤ x := by
  intro p n
  induction n generalizing p with
  | zero => intro h; exact absurd h (by simp [pair_offsets])
  | succ m ih =>
    intro h
    simp only [pair_offsets, List.mem_cons] at h
    rcases h with rfl | rfl | h
    · exact Nat.le_refl x
    · omega
    · have := ih h; omega

theorem triple_offsets_pairwise : ∀ (p n : Nat), (triple_offsets p n).Pairwise (· < ·) := by
  intro p n
  induction n generalizing p with
  | zero => exact List.Pairwise.nil
  | succ m ih =>
    refine List.Pairwise.cons ?_ (List.Pairwise.cons ?_ (List.Pairwise.cons ?_ (ih (p + 3))))
    · intro x hx
      simp only [List.mem_cons] at hx
      rcases hx with rfl | rfl | hx
      · omega
      · omega
      · have := triple_offsets_le hx; omega
    · intro x hx
      simp only [List.mem_cons] at hx
      rcases hx with rfl | hx
      · omega
      · have := triple_offsets_le hx; omega
    · intro x hx
      have := triple_offsets_le hx; omega

theorem pair_offsets_pairwise : ∀ (p n : Nat), (pair_offsets p n).Pairwise (· < ·) := by
  intro p n
  induction n generalizing p with
  | zero => exact List.Pairwise.nil
  | succ m ih =>
    refine List.Pairwise.cons ?_ (List.Pairwise.cons ?_ (ih (p + 2)))
    · intro x hx
      simp only [List.mem_cons] at hx
      rcases hx with rfl | hx
      · omega
      · have := pair_offsets_le hx; omega
    · intro x hx
      have := pair_offsets_le hx; omega

/-! ### Inversion of the SOF_55 decoder -/

theorem dump_sof_component_ok {s s' : JpegReader} (h : s.dump_sof_component = .ok s') :
    ∃ b1 b2 b3, s.data.get? s.pos = some b1 ∧ s.data.get? (s.pos + 1) = some b2 ∧
      s.data.get? (s.pos + 2) = some b3 ∧
      s' = { s with
              pos := s.pos + 3
              output := s.output ++ [(s.pos, ci_text b1), (s.pos + 1, sampling_text b2),
                (s.pos + 2, tq_text b3)] } := by
  unfold dump_sof_component at h
  obtain ⟨⟨b1, s1⟩, h1, h⟩ := bind_ok h
  obtain ⟨hg1, rfl⟩ := read_byte_ok h1
  dsimp only [position, print_line] at h
  obtain ⟨⟨b2, s2⟩, h2, h⟩ := bind_ok h
  obtain ⟨hg2, rfl⟩ := read_byte_ok h2
  dsimp only [position, print_line] at h ⊢
  obtain ⟨⟨b3, s3⟩, h3, h⟩ := bind_ok h
  obtain ⟨hg3, rfl⟩ := read_byte_ok h3
  dsimp only [position, print_line] at h hg2 hg3
  rw [Except.ok.injEq] at h
  refine ⟨b1, b2, b3, hg1, hg2, ?_, ?_⟩
  · exact hg3
  · rw [← h]
    simp [List.append_assoc]

theorem dump_sof_components_ok : ∀ (n : Nat) (s s' : JpegReader),
    dump_sof_components n s = .ok s' →
    s'.data = s.data ∧ s'.jpegls_stream = s.jpegls_stream ∧ s'.pos = s.pos + 3 * n ∧
    ∃ t, s'.output = s.output ++ t ∧ t.map Prod.fst = triple_offsets s.pos n ∧
      ∀ l ∈ t, ∃ r, l.2 = "   " ++ r := by
  intro n
  induction n with
  | zero =>
    intro s s' h
    unfold dump_sof_components at h
    rw [Except.ok.injEq] at h
    subst h
    exact ⟨rfl, rfl, by omega, [], by simp, by simp [triple_offsets], by simp⟩
  | succ m ih =>
    intro s s' h
    unfold dump_sof_components at h
    obtain ⟨s1, h1, h⟩ := bind_ok h
    obtain ⟨b1, b2, b3, hg1, hg2, hg3, rfl⟩ := dump_sof_component_ok h1
    obtain ⟨hd, hj, hp, t, ho, hm, hind⟩ := ih _ s' h
    dsimp only at hd hj hp ho hm
    refine ⟨hd, hj, by omega,
      (s.pos, ci_text b1) :: (s.pos + 1, sampling_text b2) :: (s.pos + 2, tq_text b3) :: t,
      ?_, ?_, ?_⟩
    · rw [ho]; simp [List.append_assoc]
    · simp only [List.map_cons, hm, triple_offsets]
    · intro l hl
      simp only [List.mem_cons] at hl
      rcases hl with rfl | rfl | rfl | hl
      · exact ci_text_indent b1
      · exact sampling_text_indent b2
      · exact tq_text_indent b3
      · exact hind l hl

/-- Weakening three-space indentation to two-space indentation. -/
theorem indent3_to_2 {x : String} (h : ∃ r, x = "   " ++ r) : ∃ r, x = "  " ++ r := by
  obtain ⟨r, rfl⟩ := h
  exact ⟨" " ++ r, by rw [show ("   " : String) = "  " ++ " " from rfl, String.append_assoc]⟩

theorem sof_size_text_indent (n : Nat) : ∃ r, sof_size_text n = "  " ++ r :=
  append_keeps_head (show ∃ r, "  Size = " = "  " ++ r from ⟨_, rfl⟩) (toString n)

theorem sof_precision_text_indent (n : Nat) : ∃ r, sof_precision_text n = "  " ++ r :=
  append_keeps_head
    (show ∃ r, "  Sample precision (P) = " = "  " ++ r from ⟨_, rfl⟩) (toString n)

theorem sof_y_text_indent (n : Nat) : ∃ r, sof_y_text n = "  " ++ r :=
  append_keeps_head
    (show ∃ r, "  Number of lines (Y) = " = "  " ++ r from ⟨_, rfl⟩) (toString n)

theorem sof_x_text_indent (n : Nat) : ∃ r, sof_x_text n = "  " ++ r :=
  append_keeps_head
    (show ∃ r, "  Number of samples per line (X) = " = "  " ++ r from ⟨_, rfl⟩) (toString n)

theorem sof_nf_text_indent (n : Nat) : ∃ r, sof_nf_text n = "  " ++ r :=
  append_keeps_head
    (show ∃ r, "  Number of image components in a frame (Nf) = " = "  " ++ r from ⟨_, rfl⟩)
    (toString n)

theorem sos_size_text_indent (n : Nat) : ∃ r, sos_size_text n = "  " ++ r :=
  append_keeps_head (show ∃ r, "  Size = " = "  " ++ r from ⟨_, rfl⟩) (toString n)

theorem sos_count_text_indent (n : Nat) : ∃ r, sos_count_text n = "  " ++ r :=
  append_keeps_head
    (show ∃ r, "  Component Count = " = "  " ++ r from ⟨_, rfl⟩) (toString n)

theorem near_text_indent (n : Nat) : ∃ r, near_text n = "  " ++ r :=
  append_keeps_head
    (show ∃ r, "  Near lossless (NEAR parameter) = " = "  " ++ r from ⟨_, rfl⟩) (toString n)

theorem ilv_text_indent (n : Nat) : ∃ r, ilv_text n = "  " ++ r := by
  unfold ilv_text
  have h0 : ∃ r, "  Interleave mode (ILV parameter) = " = "  " ++ r :=
    ⟨"Interleave mode (ILV parameter) = ", rfl⟩
  exact append_keeps_head (append_keeps_head (append_keeps_head
    (append_keeps_head h0 _) _) _) _

theorem pt_text_indent (n : Nat) : ∃ r, pt_text n = "  " ++ r :=
  append_keeps_head
    (show ∃ r, "  Point Transform = " = "  " ++ r from ⟨_, rfl⟩) (toString n)

theorem dump_sof_ok {s s' : JpegReader} (h : s.dump_start_of_frame_jpegls = .ok s') :
    ∃ N, s.data.get? (s.pos + 7) = some N ∧ s'.data = s.data ∧ s'.jpegls_stream = true ∧
      s'.pos = s.pos + 8 + 3 * N ∧
      ∃ t, s'.output = s.output ++ (s.pos - 2, sof_summary_text) :: t ∧
        t.map Prod.fst = [s.pos, s.pos + 2, s.pos + 3, s.pos + 5, s.pos + 7]
          ++ triple_offsets (s.pos + 8) N ∧
        ∀ l ∈ t, ∃ r, l.2 = "  " ++ r := by
  unfold dump_start_of_frame_jpegls at h
  obtain ⟨⟨size, s1⟩, h1, h⟩ := bind_ok h
  obtain ⟨hi1, lo1, hg1, hg1b, rfl, rfl⟩ := read_uint16_ok h1
  dsimp only [position, print_line, get_start_offset] at h hg1 hg1b
  obtain ⟨⟨precision, s2⟩, h2, h⟩ := bind_ok h
  obtain ⟨hg2, rfl⟩ := read_byte_ok h2
  dsimp only [position, print_line] at h hg2
  obtain ⟨⟨y, s3⟩, h3, h⟩ := bind_ok h
  obtain ⟨hi3, lo3, hg3, hg3b, rfl, rfl⟩ := read_uint16_ok h3
  dsimp only [position, print_line] at h hg3 hg3b
  obtain ⟨⟨x, s4⟩, h4, h⟩ := bind_ok h
  obtain ⟨hi4, lo4, hg4, hg4b, rfl, rfl⟩ := read_uint16_ok h4
  dsimp only [position, print_line] at h hg4 hg4b
  obtain ⟨⟨component_count, s5⟩, h5, h⟩ := bind_ok h
  obtain ⟨hg5, rfl⟩ := read_byte_ok h5
  dsimp only [position, print_line] at h hg5
  obtain ⟨s6, h6, h⟩ := bind_ok h
  obtain ⟨hd, hj, hp, t, ho, hm, hind⟩ := dump_sof_components_ok _ _ _ h6
  dsimp only at hd hj hp ho hm
  rw [Except.ok.injEq] at h
  subst h
  refine ⟨component_count, ?_, by simpa using hd, rfl, by dsimp; omega,
    (s.pos, sof_size_text ((hi1 <<< 8) ||| lo1))
      :: (s.pos + 2, sof_precision_text precision)
      :: (s.pos + 3, sof_y_text ((hi3 <<< 8) ||| lo3))
      :: (s.pos + 5, sof_x_text ((hi4 <<< 8) ||| lo4))
      :: (s.pos + 7, sof_nf_text component_count) :: t, ?_, ?_, ?_⟩
  · rw [show s.pos + 7 = s.pos + 2 + 1 + 2 + 2 from by omega]
    exact hg5
  · dsimp only
    rw [ho]
    simp only [List.append_assoc, List.cons_append, List.nil_append, List.singleton_append]
  · simp only [List.map_cons, hm, List.cons_append, List.nil_append]
  · intro l hl
    simp only [List.mem_cons] at hl
    rcases hl with rfl | rfl | rfl | rfl | rfl | hl
    · exact sof_size_text_indent _
    · exact sof_precision_text_indent _
    · exact sof_y_text_indent _
    · exact sof_x_text_indent _
    · exact sof_nf_text_indent _
    · exact indent3_to_2 (hind l hl)

/-! ### Inversion of the SOS decoder -/

theorem dump_sos_component_ok {s s' : JpegReader} (h : s.dump_sos_component = .ok s') :
    ∃ b1 b2, s.data.get? s.pos = some b1 ∧ s.data.get? (s.pos + 1) = some b2 ∧
      s' = { s with
              pos := s.pos + 2
              output := s.output ++ [(s.pos, ci_text b1), (s.pos + 1, mapping_text b2)] } := by
  unfold dump_sos_component at h
  obtain ⟨⟨b1, s1⟩, h1, h⟩ := bind_ok h
  obtain ⟨hg1, rfl⟩ := read_byte_ok h1
  dsimp only [position, print_line] at h
  obtain ⟨⟨b2, s2⟩, h2, h⟩ := bind_ok h
  obtain ⟨hg2, rfl⟩ := read_byte_ok h2
  dsimp only [position, print_line] at h hg2
  rw [Except.ok.injEq] at h
  refine ⟨b1, b2, hg1, hg2, ?_⟩
  rw [← h]
  simp [List.append_assoc]

theorem dump_sos_components_ok : ∀ (n : Nat) (s s' : JpegReader),
    dump_sos_components n s = .ok s' →
    s'.data = s.data ∧ s'.jpegls_stream = s.jpegls_stream ∧ s'.pos = s.pos + 2 * n ∧
    ∃ t, s'.output = s.output ++ t ∧ t.map Prod.fst = pair_offsets s.pos n ∧
      ∀ l ∈ t, ∃ r, l.2 = "   " ++ r := by
  intro n
  induction n with
  | zero =>
    intro s s' h
    unfold dump_sos_components at h
    rw [Except.ok.injEq] at h
    subst h
    exact ⟨rfl, rfl, by omega, [], by simp, by simp [pair_offsets], by simp⟩
  | succ m ih =>
    intro s s' h
    unfold dump_sos_components at h
    obtain ⟨s1, h1, h⟩ := bind_ok h
    obtain ⟨b1, b2, hg1, hg2, rfl⟩ := dump_sos_component_ok h1
    obtain ⟨hd, hj, hp, t, ho, hm, hind⟩ := ih _ s' h
    dsimp only at hd hj hp ho hm
    refine ⟨hd, hj, by omega,
      (s.pos, ci_text b1) :: (s.pos + 1, mapping_text b2) :: t, ?_, ?_, ?_⟩
    · rw [ho]; simp [List.append_assoc]
    · simp only [List.map_cons, hm, pair_offsets]
    · intro l hl
      simp only [List.mem_cons] at hl
      rcases hl with rfl | rfl | hl
      · exact ci_text_indent b1
      · exact mapping_text_indent b2
      · exact hind l hl

theorem dump_sos_ok {s s' : JpegReader} (h : s.dump_start_of_scan = .ok s') :
    ∃ N, s.data.get? (s.pos + 2) = some N ∧ s'.data = s.data ∧
      s'.jpegls_stream = s.jpegls_stream ∧ s'.pos = s.pos + 6 + 2 * N ∧
      ∃ t, s'.output = s.output ++ (s.pos - 2, sos_summary_text) :: t ∧
        t.map Prod.fst = [s.pos, s.pos + 2] ++ pair_offsets (s.pos + 3) N
          ++ [s.pos + 3 + 2 * N, s.pos + 4 + 2 * N, s.pos + 5 + 2 * N] ∧
        ∀ l ∈ t, ∃ r, l.2 = "  " ++ r := by
  unfold dump_start_of_scan at h
  obtain ⟨⟨size, s1⟩, h1, h⟩ := bind_ok h
  obtain ⟨hi1, lo1, hg1, hg1b, rfl, rfl⟩ := read_uint16_ok h1
  dsimp only [position, print_line, get_start_offset] at h hg1 hg1b
  obtain ⟨⟨component_count, s2⟩, h2, h⟩ := bind_ok h
  obtain ⟨hg2, rfl⟩ := read_byte_ok h2
  dsimp only [position, print_line] at h hg2
  obtain ⟨s3, h3, h⟩ := bind_ok h
  obtain ⟨hd, hj, hp, t, ho, hm, hind⟩ := dump_sos_components_ok _ _ _ h3
  dsimp only at hd hj hp ho hm
  obtain ⟨⟨near, s4⟩, h4, h⟩ := bind_ok h
  obtain ⟨hg4, rfl⟩ := read_byte_ok h4
  dsimp only [position, print_line] at h hg4
  obtain ⟨⟨ilv, s5⟩, h5, h⟩ := bind_ok h
  obtain ⟨hg5, rfl⟩ := read_byte_ok h5
  dsimp only [position, print_line] at h hg5
  obtain ⟨⟨pt, s6⟩, h6, h⟩ := bind_ok h
  obtain ⟨hg6, rfl⟩ := read_byte_ok h6
  dsimp only [position, print_line] at h hg6
  rw [Except.ok.injEq] at h
  subst h
  refine ⟨component_count, hg2, by simpa using hd, by simpa using hj, ?_,
    (s.pos, sos_size_text ((hi1 <<< 8) ||| lo1))
      :: (s.pos + 2, sos_count_text component_count)
      :: (t ++ [(s.pos + 3 + 2 * component_count, near_text near),
           (s.pos + 4 + 2 * component_count, ilv_text ilv),
           (s.pos + 5 + 2 * component_count, pt_text pt)]), ?_, ?_, ?_⟩
  · dsimp only
    rw [hp]
    omega
  · dsimp only
    rw [ho, hp]
    rw [show s.pos + 2 + 1 + 2 * component_count + 1 = s.pos + 4 + 2 * component_count
      from by omega]
    rw [show s.pos + 2 + 1 + 2 * component_count = s.pos + 3 + 2 * component_count
      from by omega]
    rw [show s.pos + 4 + 2 * component_count + 1 = s.pos + 5 + 2 * component_count
      from by omega]
    simp [List.append_assoc]
  · simp only [List.map_cons, List.map_append, hm, List.cons_append, List.nil_append,
      List.map_nil]
  · intro l hl
    simp only [List.mem_cons, List.mem_append] at hl
    rcases hl with rfl | rfl | hl | hl
    · exact sos_size_text_indent _
    · exact sos_count_text_indent _
    · exact indent3_to_2 (hind l hl)
    · rcases hl with rfl | rfl | rfl | hl
      · exact near_text_indent _
      · exact ilv_text_indent _
      · exact pt_text_indent _
      · exact absurd hl (by simp)

theorem pair_offsets_lt {x : Nat} : ∀ {p n : Nat}, x ∈ pair_offsets p n → x < p + 2 * n := by
  intro p n
  induction n generalizing p with
  | zero => intro h; exact absurd h (by simp [pair_offsets])
  | succ m ih =>
    intro h
    simp only [pair_offsets, List.mem_cons] at h
    rcases h with rfl | rfl | h
    · omega
    · omega
    · have := ih h; omega

/-! ### Truncated SOF_55 segments

`sof_component_lines_avail` and `sof_field_lines_avail` mirror, field by
field, which trace lines `_dump_start_of_frame_jpegls` manages to print
from data `d` starting at entry position `p` before a one-byte read runs
out of bytes: a line is included exactly when every byte of its field is
present (a `print` whose f-string raises mid-evaluation prints nothing). -/

def sof_component_lines_avail (d : List Nat) (p : Nat) : Nat → List (Nat × String)
  | 0 => []
  | n + 1 =>
    match d.get? p with
    | none => []
    | some b1 =>
      (p, ci_text b1) ::
        match d.get? (p + 1) with
        | none => []
        | some b2 =>
          (p + 1, sampling_text b2) ::
            match d.get? (p + 2) with
            | none => []
            | some b3 => (p + 2, tq_text b3) :: sof_component_lines_avail d (p + 3) n

def sof_field_lines_avail (d : List Nat) (p : Nat) : List (Nat × String) :=
  match d.get? p with
  | none => []
  | some hi =>
    match d.get? (p + 1) with
    | none => []
    | some lo =>
      (p, sof_size_text ((hi <<< 8) ||| lo)) ::
        match d.get? (p + 2) with
        | none => []
        | some pr =>
          (p + 2, sof_precision_text pr) ::
            match d.get? (p + 3) with
            | none => []
            | some yh =>
              match d.get? (p + 4) with
              | none => []
              | some yl =>
                (p + 3, sof_y_text ((yh <<< 8) ||| yl)) ::
                  match d.get? (p + 5) with
                  | none => []
                  | some xh =>
                    match d.get? (p + 6) with
                    | none => []
                    | some xl =>
                      (p + 5, sof_x_text ((xh <<< 8) ||| xl)) ::
                        match d.get? (p + 7) with
                        | none => []
                        | some nf =>
                          (p + 7, sof_nf_text nf) ::
                            sof_component_lines_avail d (p + 8) nf

theorem read_byte_err_of {s : JpegReader} (h : s.data.get? s.pos = none) :
    s.read_byte = .error s := by
  unfold read_byte; rw [h]

theorem read_uint16_err_of_fst {s : JpegReader} (h : s.data.get? s.pos = none) :
    s.read_uint16_big_endian = .error s := by
  unfold read_uint16_big_endian
  rw [read_byte_err_of h]
  rfl

theorem read_uint16_err_of_snd {s : JpegReader} {b : Nat}
    (h1 : s.data.get? s.pos = some b) (h2 : s.data.get? (s.pos + 1) = none) :
    s.read_uint16_big_endian = .error { s with pos := s.pos + 1 } := by
  unfold read_uint16_big_endian
  rw [read_byte_of_get h1]
  show ({ s with pos := s.pos + 1 } : JpegReader).read_byte >>= _ = _
  rw [read_byte_err_of (show ({ s with pos := s.pos + 1 } : JpegReader).data.get?
    ({ s with pos := s.pos + 1 } : JpegReader).pos = none from h2)]
  rfl

theorem dump_sof_component_err_1 {s : JpegReader} (h : s.data.get? s.pos = none) :
    s.dump_sof_component = .error s := by
  unfold dump_sof_component
  rw [read_byte_err_of h]
  rfl

theorem dump_sof_component_err_2 {s : JpegReader} {b1 : Nat}
    (h1 : s.data.get? s.pos = some b1) (h2 : s.data.get? (s.pos + 1) = none) :
    s.dump_sof_component =
      .error { s with
                pos := s.pos + 1
                output := s.output ++ [(s.pos, ci_text b1)] } := by
  obtain ⟨d, p, j, o⟩ := s
  dsimp only at h1 h2 ⊢
  simp only [dump_sof_component, read_byte, bind, Except.bind, print_line, position,
    h1, h2]

theorem dump_sof_component_err_3 {s : JpegReader} {b1 b2 : Nat}
    (h1 : s.data.get? s.pos = some b1) (h2 : s.data.get? (s.pos + 1) = some b2)
    (h3 : s.data.get? (s.pos + 2) = none) :
    s.dump_sof_component =
      .error { s with
                pos := s.pos + 2
                output := s.output ++ [(s.pos, ci_text b1),
                  (s.pos + 1, sampling_text b2)] } := by
  obtain ⟨d, p, j, o⟩ := s
  dsimp only at h1 h2 h3 ⊢
  simp only [dump_sof_component, read_byte, bind, Except.bind, print_line, position,
    h1, h2, h3]
  simp [List.append_assoc]

theorem dump_sof_component_of_get {s : JpegReader} {b1 b2 b3 : Nat}
    (h1 : s.data.get? s.pos = some b1) (h2 : s.data.get? (s.pos + 1) = some b2)
    (h3 : s.data.get? (s.pos + 2) = some b3) :
    s.dump_sof_component =
      .ok { s with
             pos := s.pos + 3
             output := s.output ++ [(s.pos, ci_text b1), (s.pos + 1, sampling_text b2),
               (s.pos + 2, tq_text b3)] } := by
  obtain ⟨d, p, j, o⟩ := s
  dsimp only at h1 h2 h3 ⊢
  simp only [dump_sof_component, read_byte, bind, Except.bind, print_line, position,
    h1, h2, h3]
  simp [List.append_assoc]

theorem lt_of_get?_some {d : List Nat} {n b : Nat} (h : d.get? n = some b) :
    n < d.length := by
  by_contra hc
  rw [List.get?_eq_none.mpr (by omega)] at h
  exact Option.noConfusion h

theorem dump_sof_components_err : ∀ (n : Nat) (s : JpegReader),
    s.pos ≤ s.data.length → s.data.length < s.pos + 3 * n →
    dump_sof_components n s =
      .error { s with
                pos := s.data.length
                output := s.output ++ sof_component_lines_avail s.data s.pos n } := by
  intro n
  induction n with
  | zero => intro s h1 h2; omega
  | succ m ih =>
    intro s h1 h2
    cases hg1 : s.data.get? s.pos with
    | none =>
      have hpl : s.pos = s.data.length := by
        have := List.get?_eq_none.mp hg1; omega
      unfold dump_sof_components
      rw [dump_sof_component_err_1 hg1]
      unfold sof_component_lines_avail
      rw [hg1]
      dsimp only [bind, Except.bind]
      obtain ⟨d, p, j, o⟩ := s
      dsimp only at hpl ⊢
      subst hpl
      simp
    | some b1 =>
      cases hg2 : s.data.get? (s.pos + 1) with
      | none =>
        have hpl : s.pos + 1 = s.data.length := by
          have := List.get?_eq_none.mp hg2; have := lt_of_get?_some hg1; omega
        unfold dump_sof_components
        rw [dump_sof_component_err_2 hg1 hg2]
        unfold sof_component_lines_avail
        rw [hg1, hg2]
        dsimp only [bind, Except.bind]
        obtain ⟨d, p, j, o⟩ := s
        dsimp only at hpl ⊢
        rw [hpl]
      | some b2 =>
        cases hg3 : s.data.get? (s.pos + 2) with
        | none =>
          have hpl : s.pos + 2 = s.data.length := by
            have := List.get?_eq_none.mp hg3; have := lt_of_get?_some hg2; omega
          unfold dump_sof_components
          rw [dump_sof_component_err_3 hg1 hg2 hg3]
          unfold sof_component_lines_avail
          rw [hg1, hg2, hg3]
          dsimp only [bind, Except.bind]
          obtain ⟨d, p, j, o⟩ := s
          dsimp only at hpl ⊢
          rw [hpl]
        | some b3 =>
          have hlt : s.pos + 2 < s.data.length := lt_of_get?_some hg3
          unfold dump_sof_components
          rw [dump_sof_component_of_get hg1 hg2 hg3]
          dsimp only [bind, Except.bind]
          rw [ih _ (by dsimp only; omega) (by dsimp only; omega)]
          have hmirror : sof_component_lines_avail s.data s.pos (m + 1) =
              (s.pos, ci_text b1) :: (s.pos + 1, sampling_text b2) ::
                (s.pos + 2, tq_text b3) ::
                  sof_component_lines_avail s.data (s.pos + 3) m := by
            conv_lhs => rw [sof_component_lines_avail]
            simp only [hg1, hg2, hg3]
          rw [hmirror]
          obtain ⟨d, p, j, o⟩ := s
          simp [List.append_assoc]

/-! Read lemmas stated on literal reader states, used to step through a
truncated frame-header decode. -/

theorem read_byte_mk_ok (d : List Nat) (p : Nat) (j : Bool) (o : List (Nat × String))
    (b : Nat) (h : d.get? p = some b) :
    (⟨d, p, j, o⟩ : JpegReader).read_byte = .ok (b, ⟨d, p + 1, j, o⟩) := by
  unfold read_byte
  dsimp only
  rw [h]

theorem read_byte_mk_err (d : List Nat) (p : Nat) (j : Bool) (o : List (Nat × String))
    (h : d.get? p = none) :
    (⟨d, p, j, o⟩ : JpegReader).read_byte = .error ⟨d, p, j, o⟩ := by
  unfold read_byte
  dsimp only
  rw [h]

theorem read_uint16_mk_ok (d : List Nat) (p : Nat) (j : Bool) (o : List (Nat × String))
    (hi lo : Nat) (h1 : d.get? p = some hi) (h2 : d.get? (p + 1) = some lo) :
    (⟨d, p, j, o⟩ : JpegReader).read_uint16_big_endian =
      .ok ((hi <<< 8) ||| lo, ⟨d, p + 2, j, o⟩) := by
  unfold read_uint16_big_endian
  rw [read_byte_mk_ok d p j o hi h1]
  dsimp only [bind, Except.bind]
  rw [read_byte_mk_ok d (p + 1) j o lo h2]

theorem read_uint16_mk_err_fst (d : List Nat) (p : Nat) (j : Bool)
    (o : List (Nat × String)) (h : d.get? p = none) :
    (⟨d, p, j, o⟩ : JpegReader).read_uint16_big_endian = .error ⟨d, p, j, o⟩ := by
  unfold read_uint16_big_endian
  rw [read_byte_mk_err d p j o h]
  rfl

theorem read_uint16_mk_err_snd (d : List Nat) (p : Nat) (j : Bool)
    (o : List (Nat × String)) (b : Nat) (h1 : d.get? p = some b)
    (h2 : d.get? (p + 1) = none) :
    (⟨d, p, j, o⟩ : JpegReader).read_uint16_big_endian = .error ⟨d, p + 1, j, o⟩ := by
  unfold read_uint16_big_endian
  rw [read_byte_mk_ok d p j o b h1]
  dsimp only [bind, Except.bind]
  rw [read_byte_mk_err d (p + 1) j o h2]

/-! ### The `jpegls_stream` flag across the dispatch table -/

theorem dump_marker_code_flag_of_ne {s : JpegReader} {code : Nat} {s' : JpegReader}
    (hne : code ≠ 0xF7) (h : s.dump_marker_code code = .ok s') :
    s'.jpegls_stream = s.jpegls_stream := by
  unfold dump_marker_code at h
  by_cases h1 : code = JpegMarker.START_OF_IMAGE
  · rw [if_pos h1] at h
    unfold dump_start_of_image_marker at h
    rw [Except.ok.injEq] at h
    subst h; rfl
  · rw [if_neg h1] at h
    by_cases h2 : code = JpegMarker.END_OF_IMAGE
    · rw [if_pos h2] at h
      unfold dump_end_of_image at h
      rw [Except.ok.injEq] at h
      subst h; rfl
    · rw [if_neg h2, if_neg (show code ≠ JpegMarker.START_OF_FRAME_JPEGLS from hne)] at h
      by_cases h4 : code = JpegMarker.START_OF_SCAN
      · rw [if_pos h4] at h
        obtain ⟨_, _, _, hj, _⟩ := dump_sos_ok h
        exact hj
      · rw [if_neg h4] at h
        unfold dump_unknown_marker at h
        rw [Except.ok.injEq] at h
        subst h; rfl

theorem dump_marker_code_flag_mono {s : JpegReader} {code : Nat} {s' : JpegReader}
    (h : s.dump_marker_code code = .ok s') (hj : s.jpegls_stream = true) :
    s'.jpegls_stream = true := by
  by_cases hc : code = 0xF7
  · subst hc
    unfold dump_marker_code at h
    rw [if_neg (by decide), if_neg (by decide),
      if_pos (show (0xF7 : Nat) = JpegMarker.START_OF_FRAME_JPEGLS from rfl)] at h
    obtain ⟨_, _, _, hj', _⟩ := dump_sof_ok h
    exact hj'
  · rw [dump_marker_code_flag_of_ne hc h]
    exact hj

end JpegReader

/-! ### Claims -/

open JpegReader

/-- C1: for a byte `code` read immediately after an escape byte `0xFF`, the
scanner classifies it as a marker start exactly according to the current
mode: with `jpegls_stream = false` (header mode), `code` is a marker start
iff `code ≠ 0`; with `jpegls_stream = true` (compressed mode), `code` is a
marker start iff `code &&& 0x80 ≠ 0`. -/
theorem C1_is_marker_code_rule (s : JpegReader) :
    (s.jpegls_stream = false →
      ∀ code < 256, (s.is_marker_code code = true ↔ code ≠ 0)) ∧
    (s.jpegls_stream = true →
      ∀ code < 256, (s.is_marker_code code = true ↔ code &&& 0x80 ≠ 0)) := by
  constructor
  · intro hf code _
    simp [is_marker_code, hf]
    omega
  · intro hf code _
    simp [is_marker_code, hf]
    have h128 : code &&& 128 = (code.testBit 7).toNat * 128 := by
      have h := Nat.and_two_pow code 7
      norm_num at h
      exact h
    cases hb : code.testBit 7 <;> rw [hb] at h128 <;> simp at h128 <;> rw [h128] <;> decide

/-- Witness for C1 at `code = 0x45`: in header mode `0x45` is classified as
a marker start (it is nonzero); the compressed-mode classification agrees
with the high-bit test (`0x45` has bit 7 clear). -/
theorem C1_is_marker_code_rule_witness :
    ((JpegReader.init []).is_marker_code 0x45 = true ↔ (0x45 : Nat) ≠ 0) ∧
    (({ JpegReader.init [] with jpegls_stream := true }).is_marker_code 0x45 = true ↔
      (0x45 : Nat) &&& 0x80 ≠ 0) :=
  ⟨(C1_is_marker_code_rule (JpegReader.init [])).1 rfl 0x45 (by decide),
   (C1_is_marker_code_rule { JpegReader.init [] with jpegls_stream := true }).2
      rfl 0x45 (by decide)⟩

/-- C5: a marker code that is none of StartOfImage (0xD8), EndOfImage
(0xD9), StartOfFrameJpegLs (0xF7), StartOfScan (0xDA) is handled by
`_dump_unknown_marker`: exactly one line is printed, carrying the marker's
start offset (`position - 2`, the position of the escape byte) and the
text `" Marker 0xFF"` followed by the code in two-digit uppercase
hexadecimal; the position is unchanged, so scanning resumes at the byte
immediately following the code byte. -/
theorem C5_unknown_marker_single_line (s : JpegReader) (code : Nat)
    (h1 : code ≠ 0xD8) (h2 : code ≠ 0xD9) (h3 : code ≠ 0xF7) (h4 : code ≠ 0xDA) :
    s.dump_marker_code code =
      .ok { s with output := s.output ++ [(s.pos - 2, " Marker 0xFF" ++ to_hex2 code)] } := by
  simp [dump_marker_code, JpegMarker.START_OF_IMAGE, JpegMarker.END_OF_IMAGE,
    JpegMarker.START_OF_FRAME_JPEGLS, JpegMarker.START_OF_SCAN, h1, h2, h3, h4,
    dump_unknown_marker, unknown_text, print_line, get_start_offset, position]

/-- Witness for C5, the spec's own example: unknown code 0xC0 with the
escape byte at offset 10 (so the reader position is 12 after the code
byte) prints exactly one line `(10, " Marker 0xFFC0")` and leaves the
position at 12. -/
theorem C5_unknown_marker_single_line_witness :
    JpegReader.dump_marker_code ⟨[], 12, false, []⟩ 0xC0 =
      .ok ⟨[], 12, false, [(10, " Marker 0xFFC0")]⟩ := by
  rw [C5_unknown_marker_single_line ⟨[], 12, false, []⟩ 0xC0
    (by decide) (by decide) (by decide) (by decide)]
  rfl

/-- C6: reaching end of stream with no bytes left terminates the scan loop
cleanly (a normal `.ok` return on the very state in which the empty read
happened), and this is the sole way the loop terminates normally: every
`.ok` result of the loop is a state whose position has consumed the whole
input.  No end-of-stream marker is required. -/
theorem C6_clean_end_of_stream :
    (∀ fuel s, 0 < fuel → s.data.length ≤ s.pos → dump_loop fuel s = .ok s) ∧
    (∀ fuel s s', dump_loop fuel s = .ok s' → s'.data.length ≤ s'.pos) ∧
    (∀ data s', dump data = .ok s' → s'.data.length ≤ s'.pos) := by
  have hmain : ∀ fuel s s', dump_loop fuel s = .ok s' → s'.data.length ≤ s'.pos := by
    intro fuel
    induction fuel with
    | zero => intro s s' h; exact Except.noConfusion h
    | succ n ih =>
      intro s s' h
      simp only [dump_loop] at h
      rcases hrb : s.read_bytes with ⟨ob, s1⟩
      rw [hrb] at h
      cases ob with
      | none =>
        simp only [Except.ok.injEq] at h
        obtain ⟨hle, rfl⟩ := read_bytes_none hrb
        rw [← h]; exact hle
      | some b =>
        simp only at h
        by_cases hb : b = 0xFF
        · rw [if_pos hb] at h
          cases hr2 : s1.read_byte with
          | error e => rw [hr2] at h; exact Except.noConfusion h
          | ok p =>
            obtain ⟨code, s2⟩ := p
            rw [hr2] at h
            simp only at h
            by_cases hm : s2.is_marker_code code = true
            · rw [if_pos hm] at h
              cases hd : s2.dump_marker_code code with
              | error e => rw [hd] at h; exact Except.noConfusion h
              | ok s3 => rw [hd] at h; simp only at h; exact ih s3 s' h
            · rw [if_neg hm] at h; exact ih s2 s' h
        · rw [if_neg hb] at h; exact ih s1 s' h
  refine ⟨?_, hmain, fun data s' h => hmain _ _ _ h⟩
  intro fuel s hf h
  cases fuel with
  | zero => exact absurd hf (by omega)
  | succ n =>
    have hrb : s.read_bytes = (none, s) := by
      unfold read_bytes; rw [List.get?_eq_none.mpr h]
    simp only [dump_loop, hrb]

/-- Witness for C6: the loop on the empty input, already at end of stream,
returns cleanly, and the returned state has consumed the whole input. -/
theorem C6_clean_end_of_stream_witness :
    dump_loop 1 (JpegReader.init []) = .ok (JpegReader.init []) ∧
    ([] : List Nat).length ≤ (JpegReader.init []).pos :=
  ⟨C6_clean_end_of_stream.1 1 (JpegReader.init []) (by decide) (by decide),
   C6_clean_end_of_stream.2.1 1 (JpegReader.init []) (JpegReader.init [])
     (C6_clean_end_of_stream.1 1 (JpegReader.init []) (by decide) (by decide))⟩

/-- C10: when the scan loop meets an escape byte `0xFF` that is the last
byte of the input, the following `_read_byte` call performs
`file.read(1)[0]` on an empty read and raises an uncaught `IndexError`
(modelled as the `.error` outcome): there is no exhaustion check on the
byte read immediately after an escape byte.  In particular the one-byte
input `[0xFF]` fails this way. -/
theorem C10_trailing_escape_raises :
    (∀ fuel s, s.data.length = s.pos + 1 → s.data.get? s.pos = some 0xFF →
      dump_loop (fuel + 1) s = .error { s with pos := s.pos + 1 }) ∧
    dump [0xFF] = .error ⟨[0xFF], 1, false, []⟩ := by
  constructor
  · intro fuel s hlen hget
    have hrb : s.read_bytes = (some 0xFF, { s with pos := s.pos + 1 }) := by
      unfold read_bytes; rw [hget]
    have hrb2 : ({ s with pos := s.pos + 1 } : JpegReader).read_byte =
        .error { s with pos := s.pos + 1 } := by
      unfold read_byte
      rw [List.get?_eq_none.mpr (by simp [hlen])]
    simp [dump_loop, hrb, hrb2]
  · rfl

/-- Witness for C10: the general statement applied to the concrete input
`[0xFF]` at the start of the loop. -/
theorem C10_trailing_escape_raises_witness :
    dump_loop 1 (JpegReader.init [0xFF]) = .error ⟨[0xFF], 1, false, []⟩ :=
  (C10_trailing_escape_raises.1 0 (JpegReader.init [0xFF]) (by decide) (by decide)).trans
    (by rfl)

/-- C2: the stream mode starts in header mode (`jpegls_stream = false`); a
dispatched decoder other than the StartOfFrameJpegLs one never changes the
flag; a successful complete decode of a StartOfFrameJpegLs segment sets it
to compressed mode (`true`); and once the flag is `true` the scan loop
never makes it `false` again. -/
theorem C2_mode_transitions :
    (∀ data, (JpegReader.init data).jpegls_stream = false) ∧
    (∀ (s : JpegReader) (code : Nat) (s' : JpegReader), code ≠ 0xF7 →
      s.dump_marker_code code = .ok s' → s'.jpegls_stream = s.jpegls_stream) ∧
    (∀ s s' : JpegReader, s.dump_start_of_frame_jpegls = .ok s' →
      s'.jpegls_stream = true) ∧
    (∀ (fuel : Nat) (s s' : JpegReader), dump_loop fuel s = .ok s' →
      s.jpegls_stream = true → s'.jpegls_stream = true) := by
  refine ⟨fun data => rfl, fun s code s' hne h => dump_marker_code_flag_of_ne hne h,
    fun s s' h => ?_, ?_⟩
  · obtain ⟨_, _, _, hj, _⟩ := dump_sof_ok h
    exact hj
  · intro fuel
    induction fuel with
    | zero => intro s s' h; exact Except.noConfusion h
    | succ n ih =>
      intro s s' h hj
      simp only [dump_loop] at h
      rcases hrb : s.read_bytes with ⟨ob, s1⟩
      rw [hrb] at h
      cases ob with
      | none =>
        simp only [Except.ok.injEq] at h
        obtain ⟨-, rfl⟩ := read_bytes_none hrb
        rw [← h]; exact hj
      | some b =>
        obtain ⟨-, rfl⟩ := read_bytes_some hrb
        simp only at h
        by_cases hb : b = 0xFF
        · rw [if_pos hb] at h
          cases hr2 : ({ s with pos := s.pos + 1 } : JpegReader).read_byte with
          | error e => rw [hr2] at h; exact Except.noConfusion h
          | ok p =>
            obtain ⟨code, s2⟩ := p
            rw [hr2] at h
            obtain ⟨-, rfl⟩ := read_byte_ok hr2
            simp only at h
            by_cases hm : JpegReader.is_marker_code
                { s with pos := s.pos + 1 + 1 } code = true
            · rw [if_pos hm] at h
              cases hd : JpegReader.dump_marker_code
                  { s with pos := s.pos + 1 + 1 } code with
              | error e => rw [hd] at h; exact Except.noConfusion h
              | ok s3 =>
                rw [hd] at h
                simp only at h
                exact ih s3 s' h (dump_marker_code_flag_mono hd hj)
            · rw [if_neg hm] at h
              exact ih _ s' h hj
        · rw [if_neg hb] at h
          exact ih _ s' h hj

/-- Witness for C2: a fresh reader starts in header mode; decoding the
EndOfImage marker (code 0xD9, not 0xF7) leaves the flag unchanged; a
concrete complete SOF_55 decode (component count 0) ends with the flag
`true`; and one clean loop run from a flag-`true` state keeps it `true`. -/
theorem C2_mode_transitions_witness :
    (JpegReader.init []).jpegls_stream = false ∧
    (⟨[0xFF, 0xD9], 2, false, [(0, eoi_text)]⟩ : JpegReader).jpegls_stream =
      (⟨[0xFF, 0xD9], 2, false, []⟩ : JpegReader).jpegls_stream ∧
    (⟨[0xFF, 0xF7, 0, 11, 8, 0, 1, 0, 1, 0], 10, true,
      [(0, sof_summary_text), (2, sof_size_text 11), (4, sof_precision_text 8),
       (5, sof_y_text 1), (7, sof_x_text 1), (9, sof_nf_text 0)]⟩ :
        JpegReader).jpegls_stream = true ∧
    (⟨[], 0, true, []⟩ : JpegReader).jpegls_stream = true :=
  ⟨C2_mode_transitions.1 [],
   C2_mode_transitions.2.1 ⟨[0xFF, 0xD9], 2, false, []⟩ 0xD9
     ⟨[0xFF, 0xD9], 2, false, [(0, eoi_text)]⟩ (by decide) (by rfl),
   C2_mode_transitions.2.2.1 ⟨[0xFF, 0xF7, 0, 11, 8, 0, 1, 0, 1, 0], 2, false, []⟩
     ⟨[0xFF, 0xF7, 0, 11, 8, 0, 1, 0, 1, 0], 10, true,
      [(0, sof_summary_text), (2, sof_size_text 11), (4, sof_precision_text 8),
       (5, sof_y_text 1), (7, sof_x_text 1), (9, sof_nf_text 0)]⟩ (by rfl),
   C2_mode_transitions.2.2.2 1 ⟨[], 0, true, []⟩ ⟨[], 0, true, []⟩ (by rfl) rfl⟩

/-- C3: a successful StartOfFrameJpegLs decode whose component-count byte
(the byte 7 positions past the decoder's entry position, i.e. past the
marker code byte) is `N` leaves the position exactly `2+1+2+2+1+3N = 8+3N`
bytes past the entry position, and the stream mode is compressed
immediately after. -/
theorem C3_sof_consumes_8_plus_3N (s : JpegReader) (N : Nat) (s' : JpegReader)
    (hN : s.data.get? (s.pos + 7) = some N)
    (h : s.dump_start_of_frame_jpegls = .ok s') :
    s'.pos = s.pos + 8 + 3 * N ∧ s'.jpegls_stream = true := by
  obtain ⟨M, hM, _, hj, hp, _⟩ := dump_sof_ok h
  obtain rfl := Option.some.inj (hN.symm.trans hM)
  exact ⟨hp, hj⟩

/-- Witness for C3: a concrete SOF_55 segment with component count 0 whose
decode ends at position `2 + 8 + 3*0 = 10` with the flag set. -/
theorem C3_sof_consumes_8_plus_3N_witness :
    (10 : Nat) = 2 + 8 + 3 * 0 ∧ true = true :=
  C3_sof_consumes_8_plus_3N ⟨[0xFF, 0xF7, 0, 11, 8, 0, 1, 0, 1, 0], 2, false, []⟩ 0
    ⟨[0xFF, 0xF7, 0, 11, 8, 0, 1, 0, 1, 0], 10, true,
     [(0, sof_summary_text), (2, sof_size_text 11), (4, sof_precision_text 8),
      (5, sof_y_text 1), (7, sof_x_text 1), (9, sof_nf_text 0)]⟩ (by rfl) (by rfl)

/-- C4: for a marker whose escape byte is at position `P` (so the decoder
is entered at position `P + 2`, just past the code byte), the summary /
first trace line reports offset `P`, and every further field line of the
segment reports exactly the cursor position at which that field's first
byte is read; the offsets emitted for the segment are strictly
increasing.  For SOF_55 (component count `N`, the byte at `P + 9`) the
field offsets are `P+2` (size), `P+4` (precision), `P+5` (Y), `P+7` (X),
`P+9` (Nf), then `P+10+3i, P+11+3i, P+12+3i` for component `i`; for SOS
(component count `N`, the byte at `P + 4`) they are `P+2` (size), `P+4`
(count), `P+5+2i, P+6+2i` per component, then `P+5+2N` (near), `P+6+2N`
(interleave mode), `P+7+2N` (point transform). -/
theorem C4_reported_offsets :
    (∀ (P : Nat) (s s' : JpegReader), s.pos = P + 2 →
      s.dump_start_of_image_marker = .ok s' →
      s'.output.map Prod.fst = s.output.map Prod.fst ++ [P]) ∧
    (∀ (P : Nat) (s s' : JpegReader), s.pos = P + 2 →
      s.dump_end_of_image = .ok s' →
      s'.output.map Prod.fst = s.output.map Prod.fst ++ [P]) ∧
    (∀ (P code : Nat) (s s' : JpegReader), s.pos = P + 2 →
      s.dump_unknown_marker code = .ok s' →
      s'.output.map Prod.fst = s.output.map Prod.fst ++ [P]) ∧
    (∀ (P N : Nat) (s s' : JpegReader), s.pos = P + 2 →
      s.data.get? (P + 9) = some N → s.dump_start_of_frame_jpegls = .ok s' →
      s'.output.map Prod.fst = s.output.map Prod.fst
          ++ [P, P + 2, P + 4, P + 5, P + 7, P + 9] ++ triple_offsets (P + 10) N ∧
      List.Pairwise (· < ·) ([P, P + 2, P + 4, P + 5, P + 7, P + 9]
          ++ triple_offsets (P + 10) N)) ∧
    (∀ (P N : Nat) (s s' : JpegReader), s.pos = P + 2 →
      s.data.get? (P + 4) = some N → s.dump_start_of_scan = .ok s' →
      s'.output.map Prod.fst = s.output.map Prod.fst
          ++ [P, P + 2, P + 4] ++ pair_offsets (P + 5) N
          ++ [P + 5 + 2 * N, P + 6 + 2 * N, P + 7 + 2 * N] ∧
      List.Pairwise (· < ·) ([P, P + 2, P + 4] ++ pair_offsets (P + 5) N
          ++ [P + 5 + 2 * N, P + 6 + 2 * N, P + 7 + 2 * N])) := by
  refine ⟨?_, ?_, ?_, ?_, ?_⟩
  · intro P s s' hP h
    unfold dump_start_of_image_marker at h
    rw [Except.ok.injEq] at h
    subst h
    simp [print_line, get_start_offset, position, hP]
  · intro P s s' hP h
    unfold dump_end_of_image at h
    rw [Except.ok.injEq] at h
    subst h
    simp [print_line, get_start_offset, position, hP]
  · intro P code s s' hP h
    unfold dump_unknown_marker at h
    rw [Except.ok.injEq] at h
    subst h
    simp [print_line, get_start_offset, position, hP]
  · intro P N s s' hP hN h
    obtain ⟨M, hM, _, _, _, t, ho, hm, _⟩ := dump_sof_ok h
    rw [hP] at hM
    rw [show P + 2 + 7 = P + 9 from by omega] at hM
    obtain rfl := Option.some.inj (hN.symm.trans hM)
    constructor
    · rw [ho, hP]
      simp only [List.map_append, List.map_cons, hm, hP]
      rw [show P + 2 + 2 = P + 4 from by omega, show P + 2 + 3 = P + 5 from by omega,
        show P + 2 + 5 = P + 7 from by omega, show P + 2 + 7 = P + 9 from by omega,
        show P + 2 + 8 = P + 10 from by omega]
      simp [List.append_assoc]
    · rw [List.pairwise_append]
      refine ⟨?_, triple_offsets_pairwise _ _, ?_⟩
      · simp [List.pairwise_cons]
      · intro x hx y hy
        have hy' := triple_offsets_le hy
        simp only [List.mem_cons, List.mem_singleton, List.not_mem_nil] at hx
        rcases hx with rfl | rfl | rfl | rfl | rfl | rfl | hx
        · omega
        · omega
        · omega
        · omega
        · omega
        · omega
        · simp at hx
  · intro P N s s' hP hN h
    obtain ⟨M, hM, _, _, _, t, ho, hm, _⟩ := dump_sos_ok h
    rw [hP] at hM
    rw [show P + 2 + 2 = P + 4 from by omega] at hM
    obtain rfl := Option.some.inj (hN.symm.trans hM)
    constructor
    · rw [ho, hP]
      simp only [List.map_append, List.map_cons, hm, hP]
      rw [show P + 2 + 2 = P + 4 from by omega, show P + 2 + 3 = P + 5 from by omega,
        show P + 2 + 3 + 2 * N = P + 5 + 2 * N from by omega,
        show P + 2 + 4 + 2 * N = P + 6 + 2 * N from by omega,
        show P + 2 + 5 + 2 * N = P + 7 + 2 * N from by omega]
      simp [List.append_assoc]
    · rw [List.pairwise_append]
      refine ⟨?_, ?_, ?_⟩
      · rw [List.pairwise_append]
        refine ⟨?_, pair_offsets_pairwise _ _, ?_⟩
        · simp [List.pairwise_cons]
        · intro x hx y hy
          have hy' := pair_offsets_le hy
          simp only [List.mem_cons, List.mem_singleton, List.not_mem_nil] at hx
          rcases hx with rfl | rfl | rfl | hx
          · omega
          · omega
          · omega
          · simp at hx
      · simp [List.pairwise_cons]
      · intro x hx y hy
        simp only [List.mem_cons, List.mem_singleton, List.not_mem_nil] at hy
        rw [List.mem_append] at hx
        have hx' : x < P + 5 + 2 * N := by
          rcases hx with hx | hx
          · simp only [List.mem_cons, List.mem_singleton, List.not_mem_nil] at hx
            rcases hx with rfl | rfl | rfl | hx
            · omega
            · omega
            · omega
            · simp at hx
          · have := pair_offsets_lt hx; omega
        rcases hy with rfl | rfl | rfl | hy
        · omega
        · omega
        · omega
        · simp at hy

/-- Witness for C4: the SOF_55 clause applied to a concrete frame header
with escape byte at position 0 and component count 0: the emitted offsets
are exactly `[0, 2, 4, 5, 7, 9]` and strictly increasing. -/
theorem C4_reported_offsets_witness :
    (⟨[0xFF, 0xF7, 0, 11, 8, 0, 1, 0, 1, 0], 10, true,
      [(0, sof_summary_text), (2, sof_size_text 11), (4, sof_precision_text 8),
       (5, sof_y_text 1), (7, sof_x_text 1), (9, sof_nf_text 0)]⟩ :
        JpegReader).output.map Prod.fst =
      (⟨[0xFF, 0xF7, 0, 11, 8, 0, 1, 0, 1, 0], 2, false, []⟩ :
        JpegReader).output.map Prod.fst
        ++ [0, 0 + 2, 0 + 4, 0 + 5, 0 + 7, 0 + 9] ++ triple_offsets (0 + 10) 0 ∧
    List.Pairwise (· < ·) ([0, 0 + 2, 0 + 4, 0 + 5, 0 + 7, 0 + 9]
        ++ triple_offsets (0 + 10) 0) :=
  C4_reported_offsets.2.2.2.1 0 0 ⟨[0xFF, 0xF7, 0, 11, 8, 0, 1, 0, 1, 0], 2, false, []⟩
    ⟨[0xFF, 0xF7, 0, 11, 8, 0, 1, 0, 1, 0], 10, true,
     [(0, sof_summary_text), (2, sof_size_text 11), (4, sof_precision_text 8),
      (5, sof_y_text 1), (7, sof_x_text 1), (9, sof_nf_text 0)]⟩ rfl (by rfl) (by rfl)

/-- C8 counterexample: decoding a concrete StartOfFrameJpegLs segment
(escape byte at position 0, entry position 2) emits as its FIRST line the
marker summary line `" Marker 0xFFF7: SOF_55 ..."` at the segment's start
offset — contradicting the claim that no summary line is printed for
header/scan segments and that field decoding begins immediately. -/
theorem C8_counterexample :
    (⟨[0xFF, 0xF7, 0, 11, 8, 0, 1, 0, 1, 0], 2, false, []⟩ :
        JpegReader).dump_start_of_frame_jpegls.map (fun s => s.output.head?) =
      .ok (some (0,
        " Marker 0xFFF7: SOF_55 (Start Of Frame JPEG-LS), defined in ITU T.87/IEC 14495-1 JPEG LS")) := by
  rfl

/-- C8 amended: for every StartOfFrameJpegLs and StartOfScan segment a
summary line naming the marker IS printed first, at the segment's start
offset (`position - 2`); the segment's field lines then follow it, each
indented (their text begins with at least two spaces, against the single
space of the summary line). -/
theorem C8_summary_line_then_indented_fields :
    (∀ s s' : JpegReader, s.dump_start_of_frame_jpegls = .ok s' →
      ∃ t, s'.output = s.output ++ (s.pos - 2, sof_summary_text) :: t ∧
        ∀ l ∈ t, ∃ r, l.2 = "  " ++ r) ∧
    (∀ s s' : JpegReader, s.dump_start_of_scan = .ok s' →
      ∃ t, s'.output = s.output ++ (s.pos - 2, sos_summary_text) :: t ∧
        ∀ l ∈ t, ∃ r, l.2 = "  " ++ r) := by
  constructor
  · intro s s' h
    obtain ⟨N, _, _, _, _, t, ho, _, hind⟩ := dump_sof_ok h
    exact ⟨t, ho, hind⟩
  · intro s s' h
    obtain ⟨N, _, _, _, _, t, ho, _, hind⟩ := dump_sos_ok h
    exact ⟨t, ho, hind⟩

/-- Witness for C8 (amended): the SOF_55 clause applied to the concrete
frame header used in the counterexample. -/
theorem C8_summary_line_then_indented_fields_witness :
    ∃ t, (⟨[0xFF, 0xF7, 0, 11, 8, 0, 1, 0, 1, 0], 10, true,
      [(0, sof_summary_text), (2, sof_size_text 11), (4, sof_precision_text 8),
       (5, sof_y_text 1), (7, sof_x_text 1), (9, sof_nf_text 0)]⟩ :
        JpegReader).output =
      (⟨[0xFF, 0xF7, 0, 11, 8, 0, 1, 0, 1, 0], 2, false, []⟩ : JpegReader).output
        ++ (2 - 2, sof_summary_text) :: t ∧
      ∀ l ∈ t, ∃ r, l.2 = "  " ++ r :=
  C8_summary_line_then_indented_fields.1
    ⟨[0xFF, 0xF7, 0, 11, 8, 0, 1, 0, 1, 0], 2, false, []⟩
    ⟨[0xFF, 0xF7, 0, 11, 8, 0, 1, 0, 1, 0], 10, true,
     [(0, sof_summary_text), (2, sof_size_text 11), (4, sof_precision_text 8),
      (5, sof_y_text 1), (7, sof_x_text 1), (9, sof_nf_text 0)]⟩ (by rfl)

/-- C9: the interleave-mode name lookup returns "None" for 0, "Line
interleaved" for 1, "Sample interleaved" for 2, and "Invalid" for every
value `≥ 3`; an out-of-table value is not an error — the scan-header
decoder succeeds for an arbitrary interleave byte `v`, printing the
`Invalid`-capable label via `get_interleave_mode_name v` and continuing
with the Point Transform field after it. -/
theorem C9_interleave_mode_names :
    get_interleave_mode_name 0 = "None" ∧
    get_interleave_mode_name 1 = "Line interleaved" ∧
    get_interleave_mode_name 2 = "Sample interleaved" ∧
    (∀ v, 3 ≤ v → get_interleave_mode_name v = "Invalid") ∧
    (∀ v, (⟨[0xFF, 0xDA, 0, 6, 0, 7, v, 9], 2, false, []⟩ :
        JpegReader).dump_start_of_scan =
      .ok ⟨[0xFF, 0xDA, 0, 6, 0, 7, v, 9], 8, false,
        [(0, sos_summary_text), (2, sos_size_text 6), (4, sos_count_text 0),
         (5, near_text 7), (6, ilv_text v), (7, pt_text 9)]⟩) := by
  refine ⟨rfl, rfl, rfl, ?_, ?_⟩
  · intro v hv
    unfold get_interleave_mode_name
    rw [dif_neg]
    simp only [interleave_names, List.length_cons, List.length_nil]
    omega
  · intro v
    rfl

/-- Witness for C9: the out-of-table value 3 yields "Invalid", and the
scan header containing interleave byte 3 still decodes to completion. -/
theorem C9_interleave_mode_names_witness :
    get_interleave_mode_name 3 = "Invalid" ∧
    (⟨[0xFF, 0xDA, 0, 6, 0, 7, 3, 9], 2, false, []⟩ :
        JpegReader).dump_start_of_scan =
      .ok ⟨[0xFF, 0xDA, 0, 6, 0, 7, 3, 9], 8, false,
        [(0, sos_summary_text), (2, sos_size_text 6), (4, sos_count_text 0),
         (5, near_text 7), (6, ilv_text 3), (7, pt_text 9)]⟩ :=
  ⟨C9_interleave_mode_names.2.2.2.1 3 (by decide), C9_interleave_mode_names.2.2.2.2 3⟩

/-- C7: decoding a StartOfFrameJpegLs segment over fewer bytes than the
segment requires (fewer than `8 + 3N` payload bytes after the marker code
byte, where `N` is the component-count byte when it is present at all)
raises a read failure — the uncaught `IndexError` of `_read_byte`,
modelled as the `.error` outcome — and the state at the point of failure
has consumed all remaining bytes and has emitted exactly the summary line
plus every field line whose bytes were all present before the data ran
out (`sof_field_lines_avail`), in order: the partial trace is preserved. -/
theorem C7_truncated_sof_raises_after_partial_trace (s : JpegReader)
    (hle : s.pos ≤ s.data.length)
    (htr : ∀ N, s.data.get? (s.pos + 7) = some N →
      s.data.length < s.pos + 8 + 3 * N) :
    s.dump_start_of_frame_jpegls =
      .error { s with
                pos := s.data.length
                output := s.output ++ (s.pos - 2, sof_summary_text) ::
                  sof_field_lines_avail s.data s.pos } := by
  obtain ⟨d, p, j, o⟩ := s
  dsimp only at hle htr ⊢
  unfold dump_start_of_frame_jpegls
  dsimp only [print_line, get_start_offset, position]
  cases hg0 : d.get? p with
  | none =>
    have hend := List.get?_eq_none.mp hg0
    rw [read_uint16_mk_err_fst d p j _ hg0]
    dsimp only [bind, Except.bind]
    have hmir : sof_field_lines_avail d p = [] := by
      unfold sof_field_lines_avail
      rw [hg0]
    rw [hmir, show d.length = p from by omega]
  | some b0 =>
    cases hg1 : d.get? (p + 1) with
    | none =>
      have hend := List.get?_eq_none.mp hg1
      rw [read_uint16_mk_err_snd d p j _ b0 hg0 hg1]
      dsimp only [bind, Except.bind]
      have hmir : sof_field_lines_avail d p = [] := by
        unfold sof_field_lines_avail
        rw [hg0, hg1]
      rw [hmir, show d.length = p + 1 from by have := lt_of_get?_some hg0; omega]
    | some b1 =>
      rw [read_uint16_mk_ok d p j _ b0 b1 hg0 hg1]
      dsimp only [bind, Except.bind, print_line, position]
      cases hg2 : d.get? (p + 2) with
      | none =>
        have hend := List.get?_eq_none.mp hg2
        rw [read_byte_mk_err d (p + 2) j _ hg2]
        dsimp only [bind, Except.bind]
        have hmir : sof_field_lines_avail d p =
            [(p, sof_size_text ((b0 <<< 8) ||| b1))] := by
          unfold sof_field_lines_avail
          rw [hg0, hg1, hg2]
        rw [hmir, show d.length = p + 2 from by have := lt_of_get?_some hg1; omega]
        simp [List.append_assoc]
      | some b2 =>
        rw [read_byte_mk_ok d (p + 2) j _ b2 hg2]
        dsimp only [bind, Except.bind, print_line, position]
        rw [show p + 2 + 1 = p + 3 from by omega]
        cases hg3 : d.get? (p + 3) with
        | none =>
          have hend := List.get?_eq_none.mp hg3
          rw [read_uint16_mk_err_fst d (p + 3) j _ hg3]
          dsimp only [bind, Except.bind]
          have hmir : sof_field_lines_avail d p =
              [(p, sof_size_text ((b0 <<< 8) ||| b1)),
               (p + 2, sof_precision_text b2)] := by
            unfold sof_field_lines_avail
            rw [hg0, hg1, hg2, hg3]
          rw [hmir, show d.length = p + 3 from by have := lt_of_get?_some hg2; omega]
          simp [List.append_assoc]
        | some b3 =>
          cases hg4 : d.get? (p + 4) with
          | none =>
            have hend := List.get?_eq_none.mp hg4
            rw [read_uint16_mk_err_snd d (p + 3) j _ b3 hg3 hg4]
            dsimp only [bind, Except.bind]
            have hmir : sof_field_lines_avail d p =
                [(p, sof_size_text ((b0 <<< 8) ||| b1)),
                 (p + 2, sof_precision_text b2)] := by
              unfold sof_field_lines_avail
              rw [hg0, hg1, hg2, hg3, hg4]
            rw [hmir, show d.length = p + 4 from by have := lt_of_get?_some hg3; omega]
            simp [List.append_assoc]
          | some b4 =>
            rw [read_uint16_mk_ok d (p + 3) j _ b3 b4 hg3 hg4]
            dsimp only [bind, Except.bind, print_line, position]
            rw [show p + 3 + 2 = p + 5 from by omega]
            cases hg5 : d.get? (p + 5) with
            | none =>
              have hend := List.get?_eq_none.mp hg5
              rw [read_uint16_mk_err_fst d (p + 5) j _ hg5]
              dsimp only [bind, Except.bind]
              have hmir : sof_field_lines_avail d p =
                  [(p, sof_size_text ((b0 <<< 8) ||| b1)),
                   (p + 2, sof_precision_text b2),
                   (p + 3, sof_y_text ((b3 <<< 8) ||| b4))] := by
                unfold sof_field_lines_avail
                rw [hg0, hg1, hg2, hg3, hg4, hg5]
              rw [hmir, show d.length = p + 5 from by
                have := lt_of_get?_some hg4; omega]
              simp [List.append_assoc]
            | some b5 =>
              cases hg6 : d.get? (p + 6) with
              | none =>
                have hend := List.get?_eq_none.mp hg6
                rw [read_uint16_mk_err_snd d (p + 5) j _ b5 hg5 hg6]
                dsimp only [bind, Except.bind]
                have hmir : sof_field_lines_avail d p =
                    [(p, sof_size_text ((b0 <<< 8) ||| b1)),
                     (p + 2, sof_precision_text b2),
                     (p + 3, sof_y_text ((b3 <<< 8) ||| b4))] := by
                  unfold sof_field_lines_avail
                  rw [hg0, hg1, hg2, hg3, hg4, hg5, hg6]
                rw [hmir, show d.length = p + 6 from by
                  have := lt_of_get?_some hg5; omega]
                simp [List.append_assoc]
              | some b6 =>
                rw [read_uint16_mk_ok d (p + 5) j _ b5 b6 hg5 hg6]
                dsimp only [bind, Except.bind, print_line, position]
                rw [show p + 5 + 2 = p + 7 from by omega]
                cases hg7 : d.get? (p + 7) with
                | none =>
                  have hend := List.get?_eq_none.mp hg7
                  rw [read_byte_mk_err d (p + 7) j _ hg7]
                  dsimp only [bind, Except.bind]
                  have hmir : sof_field_lines_avail d p =
                      [(p, sof_size_text ((b0 <<< 8) ||| b1)),
                       (p + 2, sof_precision_text b2),
                       (p + 3, sof_y_text ((b3 <<< 8) ||| b4)),
                       (p + 5, sof_x_text ((b5 <<< 8) ||| b6))] := by
                    unfold sof_field_lines_avail
                    rw [hg0, hg1, hg2, hg3, hg4, hg5, hg6, hg7]
                  rw [hmir, show d.length = p + 7 from by
                    have := lt_of_get?_some hg6; omega]
                  simp [List.append_assoc]
                | some nf =>
                  rw [read_byte_mk_ok d (p + 7) j _ nf hg7]
                  dsimp only [bind, Except.bind, print_line, position]
                  rw [show p + 7 + 1 = p + 8 from by omega]
                  rw [dump_sof_components_err nf ⟨d, p + 8, j, _⟩
                    (by dsimp only; have := lt_of_get?_some hg7; omega)
                    (by dsimp only; have := htr nf hg7; omega)]
                  dsimp only [bind, Except.bind]
                  have hmir : sof_field_lines_avail d p =
                      (p, sof_size_text ((b0 <<< 8) ||| b1)) ::
                      (p + 2, sof_precision_text b2) ::
                      (p + 3, sof_y_text ((b3 <<< 8) ||| b4)) ::
                      (p + 5, sof_x_text ((b5 <<< 8) ||| b6)) ::
                      (p + 7, sof_nf_text nf) ::
                        sof_component_lines_avail d (p + 8) nf := by
                    unfold sof_field_lines_avail
                    rw [hg0, hg1, hg2, hg3, hg4, hg5, hg6, hg7]
                  rw [hmir]
                  simp [List.append_assoc]

/-- Witness for C7: a frame header truncated inside its first component
record (component count 2, only 1 byte of component data left) errors
after printing the summary line and the six field lines that were fully
decodable, the last being the first component's identifier. -/
theorem C7_truncated_sof_raises_after_partial_trace_witness :
    (⟨[0xFF, 0xF7, 0, 11, 8, 0, 1, 0, 1, 2, 5], 2, false, []⟩ :
        JpegReader).dump_start_of_frame_jpegls =
      .error ⟨[0xFF, 0xF7, 0, 11, 8, 0, 1, 0, 1, 2, 5], 11, false,
        [(0, sof_summary_text), (2, sof_size_text 11), (4, sof_precision_text 8),
         (5, sof_y_text 1), (7, sof_x_text 1), (9, sof_nf_text 2),
         (10, ci_text 5)]⟩ := by
  have h := C7_truncated_sof_raises_after_partial_trace
    ⟨[0xFF, 0xF7, 0, 11, 8, 0, 1, 0, 1, 2, 5], 2, false, []⟩ (by decide)
    (by
      intro N hN
      obtain rfl := Option.some.inj (show some 2 = some N from hN)
      decide)
  rw [h]
  rfl
